import Mathlib

/-!
# Verification of the YSN job-orchestration core

Shallow embedding of the YSN repository (`ysn.py`,
`ysn_downloader/downloader.py`, and the variant copy
`src/ysn_downloader/downloader.py`) together with theorems settling the
frozen specification claims.

Conventions of the embedding:
* Python strings are Lean `String`s; file contents are `List Nat` (byte
  sequences).
* Python `None` / missing dict keys are `Option`; Python truthiness of an
  optional string (`None` and `""` are falsy) is `optTruthy`.
* Exceptions are explicit: a fallible backend call is a value of an
  inductive describing either its return value or the exception raised;
  `try/except` in the source becomes a `match` on that value.
* Log output through the GUI callback is an explicit `List LogEntry`,
  where the constructor records the literal category tag the source
  writes at the call site (`[info]`, `[warn]`, `[ERROR]`, `[hash]`).
  Timestamps are real time and are not modelled.
* The filesystem is a read-only map `String → Option (List Nat)`
  (path to contents if the path exists).
-/

/-- One line sent to the GUI log callback, tagged with the literal
category prefix written at the source call site. `line` covers lines
without a category tag (for example the job start line). -/
inductive LogEntry where
  | line (msg : String)
  | info (msg : String)
  | warn (msg : String)
  | error (msg : String)
  | hash (msg : String)
  deriving DecidableEq, Repr

/-- Holds (as `true`) iff `l` is a warning line (written via a `[warn]` tag). -/
def LogEntry.isWarn : LogEntry → Bool
  | .warn _ => true
  | _ => false

/-- Python truthiness of an optional string: `None` and `""` are falsy. -/
def optTruthy : Option String → Bool
  | some s => s ≠ ""
  | none => false

/-- Python `a or b` on optional strings: `b` when `a` is falsy. -/
def orTruthy (a b : Option String) : Option String :=
  if optTruthy a then a else b

/-- Model of `os.path.join` / `Path./` as used by the sources (separator only;
the claims do not depend on the platform separator). -/
def joinPath (a b : String) : String := a ++ "/" ++ b

/-- Model of `Path(p).name`: the final path component. -/
def baseName (p : String) : String := (p.splitOn "/").getLastD ""

/-! ## `sha256_of_file` (ysn.py lines 59–67)

The Python function reads the file in chunks of 8192 bytes and feeds
each chunk to an incremental SHA-256 object, then asks for the digest.
The incremental hash object is modelled by the byte sequence it has
absorbed so far (`update` appends the chunk), and the digest is an
arbitrary function `d` of the absorbed bytes.  The claim of interest is
that the chunked computation absorbs exactly the file's contents, so the
logged digest is the digest of the whole file. -/

/-- The read loop of `sha256_of_file`: `absorbed` is the byte stream fed
to the hash object so far, `rest` the unread part of the file; each
iteration reads up to 8192 bytes (`f.read(chunk)`) and appends them
(`h.update(b)`), stopping on an empty read. -/
def sha256_absorb (absorbed rest : List Nat) : List Nat :=
  if rest = [] then absorbed
  else sha256_absorb (absorbed ++ rest.take 8192) (rest.drop 8192)
termination_by rest.length
decreasing_by
  rename_i h
  simp only [List.length_drop]
  have : 0 < rest.length := List.length_pos.mpr h
  omega

/-- Model of `sha256_of_file(path)` for a file whose contents are `content`,
with `d` the digest function of the absorbed byte stream. -/
def sha256_of_file (d : List Nat → String) (content : List Nat) : String :=
  d (sha256_absorb [] content)

theorem sha256_absorb_eq (absorbed rest : List Nat) :
    sha256_absorb absorbed rest = absorbed ++ rest := by
  by_cases h : rest = []
  · rw [sha256_absorb, if_pos h, h, List.append_nil]
  · rw [sha256_absorb, if_neg h,
      sha256_absorb_eq (absorbed ++ rest.take 8192) (rest.drop 8192),
      List.append_assoc, List.take_append_drop]
termination_by rest.length
decreasing_by
  simp only [List.length_drop]
  have : 0 < rest.length := List.length_pos.mpr h
  omega

/-- The chunked digest equals the digest of the whole contents. -/
theorem sha256_of_file_eq (d : List Nat → String) (content : List Nat) :
    sha256_of_file d content = d content := by
  rw [sha256_of_file, sha256_absorb_eq, List.nil_append]

/-! ## `DownloadJob` (ysn.py lines 83–245)

The job executes one download through the backend module and
post-processes the returned info dict(s).  The backend call
`ydl.extract_info(self.url, download=True)` is an input of the model
(`FetchResult`): either the info value it returned or the exception it
raised.  Only the info-dict fields the source reads are modelled. -/

/-- The fields of a backend info dict read by `_after_download_process`
(ysn.py lines 225–245).  `requested_downloads` keeps, per entry, the
`filepath` field the source reads from it. -/
structure MediaInfo where
  filename_ : Option String
  requested_downloads : Option (List (Option String))
  title : Option String
  id : Option String
  ext : Option String
  deriving DecidableEq, Repr

/-- Per-job options read by the modelled code paths
(`self.opts.get('compute_hash')`). -/
structure JobOpts where
  compute_hash : Bool
  deriving DecidableEq, Repr

/-- Ambient environment of a job run: the read-only filesystem
(path ↦ contents when the path exists), the output directory, the
SHA-256 digest function of an absorbed byte stream, and whether the
digest computation succeeds (the `try` around `sha256_of_file` — an
I/O error there is an input of the model). -/
structure JobEnv where
  fs : String → Option (List Nat)
  outdir : String
  d : List Nat → String
  hashOk : Bool

/-- ysn.py lines 228–235: resolution of the produced file's path.
`filename = info.get('_filename') or (info.get('requested_downloads', [{}])[0].get('filepath') if info.get('requested_downloads') else None)`,
then, when that is falsy, a guess `outdir / "title-id.ext"` is used if
it exists on disk. -/
def resolveFilename (env : JobEnv) (i : MediaInfo) : Option String :=
  let filename0 : Option String :=
    orTruthy i.filename_
      (match i.requested_downloads with
        | some (x :: _) => x
        | _ => none)
  if optTruthy filename0 then filename0
  else
    if optTruthy i.title && optTruthy i.id then
      let ext := if optTruthy i.ext then i.ext.getD "" else "mp4"
      let guessed := joinPath env.outdir
        (i.title.getD "" ++ "-" ++ i.id.getD "" ++ "." ++ ext)
      if (env.fs guessed).isSome then some guessed else filename0
    else filename0

/-- Model of `DownloadJob._after_download_process` (ysn.py lines 225–245).
Returns the resolved file path used for local verification (`none`
when the branch logging the resolution warning is taken or when `info`
is falsy) together with the log lines emitted. -/
def after_download_process (env : JobEnv) (opts : JobOpts)
    (info : Option MediaInfo) : Option String × List LogEntry :=
  match info with
  | none => (none, [])
  | some i =>
    let filename := resolveFilename env i
    if optTruthy filename && (env.fs (filename.getD "")).isSome then
      let fpath := filename.getD ""
      if opts.compute_hash then
        match env.fs fpath with
        | some content =>
          if env.hashOk then
            (filename, [.hash (baseName fpath ++ " SHA256: " ++
              sha256_of_file env.d content)])
          else
            (filename, [.hash ("failed for " ++ fpath)])
        | none => (filename, [])
      else (filename, [])
    else
      (none, [.warn ("could not determine downloaded filename from info: " ++
        i.id.getD "unknown")])

/-- The value returned by `ydl.extract_info` as consumed by
`_run_yt_dlp` / `_run_youtube_dl` (ysn.py lines 204–223): `none` models
a non-dict result; otherwise the `entries` field (with possibly falsy
elements) and the dict itself viewed through the `_after_download_process`
fields (`none` when the dict is falsy). -/
structure ExtractInfo where
  entries : Option (List (Option MediaInfo))
  media : Option MediaInfo
  deriving DecidableEq, Repr

/-- Outcome of the backend `extract_info` call: the returned info, or
the exception it raised. -/
inductive FetchResult where
  | ok (info : Option ExtractInfo)
  | raises (msg : String)
  deriving DecidableEq, Repr

/-- Truthiness of `info.get('entries')` (a nonempty list). -/
def entriesTruthy : Option (List (Option MediaInfo)) → Bool
  | some (_ :: _) => true
  | _ => false

/-- The post-processing loop shared by `_run_yt_dlp` and
`_run_youtube_dl` (ysn.py lines 206–211 / 218–223): one
`_after_download_process` per entry when `entries` is truthy, else one
on the whole dict. -/
def process_info (env : JobEnv) (opts : JobOpts)
    (info : Option ExtractInfo) : List LogEntry :=
  match info with
  | none => []
  | some ei =>
    if entriesTruthy ei.entries then
      ((ei.entries.getD []).map
        (fun e => (after_download_process env opts e).2)).flatten
    else (after_download_process env opts ei.media).2

/-- Model of `traceback.format_exc()` at an except-site whose caught
exception carries message `msg`. -/
def traceback_format_exc (msg : String) : String :=
  "Traceback (most recent call last):\n" ++ msg

/-- One job as handed to the worker: its URL, the selected backend
name, whether the backend module object is available, the modelled
outcome of the backend fetch, and the job options. -/
structure JobSpec where
  url : String
  backend : String
  moduleAvailable : Bool
  fetch : FetchResult
  opts : JobOpts

/-- Holds when `DownloadJob.run` reaches the backend fetch (ysn.py
lines 96–99): the selected backend is one of the two known ones and its
module object is truthy. -/
def backendRuns (job : JobSpec) : Bool :=
  (job.backend = "yt-dlp" || job.backend = "youtube-dl") && job.moduleAvailable

/-- Model of `DownloadJob.run` (ysn.py lines 92–105): logs the start line, runs
the backend-specific body, catches any exception (logging it with its
traceback) and returns `false` for it; returns `true` otherwise. -/
def DownloadJob.run (env : JobEnv) (job : JobSpec) : Bool × List LogEntry :=
  let startLine : LogEntry :=
    .line ("Starting download: " ++ job.url ++ " (backend: " ++ job.backend ++ ")")
  if backendRuns job then
    match job.fetch with
    | .raises msg =>
      (false, [startLine, .error (msg ++ "\n" ++ traceback_format_exc msg)])
    | .ok info => (true, startLine :: process_info env job.opts info)
  else
    (false, [startLine,
      .error ("Selected backend '" ++ job.backend ++
        "' not available on this system\n" ++
        traceback_format_exc ("Selected backend '" ++ job.backend ++
          "' not available on this system"))])

/-! ## `DownloadWorker` (ysn.py lines 249–283)

The Qt worker thread owns the batch: it coerces the requested
parallelism in its constructor, picks the sequential or the pooled
execution mode, sizes the pool and submits one `job.run` per job.  The
aggregate of outcomes (the BatchResult of the specification) is the
list of values produced by the `job.run` calls, one per submitted job
(the futures list is built in submission order). -/

namespace DownloadWorker

/-- Model of `self.parallel = max(1, int(parallel))` (ysn.py line 256). -/
def parallelField (parallel : Int) : Nat := (max 1 parallel).toNat

/-- Model of `cpu_count = (os.cpu_count() or 2)` (ysn.py line 269):
`os.cpu_count()` may return `None` (falsy), modelled by the option. -/
def cpu_count_resolved : Option Nat → Nat
  | some n => if n = 0 then 2 else n
  | none => 2

/-- Model of `max_workers = min(self.parallel, max(4, cpu_count * 4), 64)`
(ysn.py line 271). -/
def max_workers (parallel : Int) (cpuRaw : Option Nat) : Nat :=
  min (min (parallelField parallel) (max 4 (cpu_count_resolved cpuRaw * 4))) 64

/-- The two execution modes of `DownloadWorker.run`. -/
inductive Mode where
  | sequential
  | concurrent
  deriving DecidableEq, Repr

/-- The branch taken at ysn.py line 263: `if self.parallel <= 1`. -/
def mode (parallel : Int) : Mode :=
  if parallelField parallel ≤ 1 then .sequential else .concurrent

/-- Model of `DownloadWorker.run` (ysn.py lines 258–283): returns the aggregate
of job outcomes (one `job.run` result per submitted job — in the
sequential branch the loop runs each job once in submission order; in
the pooled branch one future is submitted per job and each future
yields one result) together with the emitted log lines.  `job.run`
catches every exception internally, so `fut.result()` never raises and
the `except` branch of the completion loop adds no log line. -/
def run (env : JobEnv) (jobs : List JobSpec) (parallel : Int)
    (cpuRaw : Option Nat) : List Bool × List LogEntry :=
  let outcomes := jobs.map (fun j => (DownloadJob.run env j).1)
  let jobLogs := (jobs.map (fun j => (DownloadJob.run env j).2)).flatten
  if parallelField parallel ≤ 1 then
    (outcomes, jobLogs)
  else
    (outcomes,
      .info ("Using up to " ++ toString (max_workers parallel cpuRaw) ++
        " worker threads for downloads.") :: jobLogs)

end DownloadWorker

/-! ### Bounded thread-pool semantics

`ThreadPoolExecutor(max_workers=mw)` runs at most `mw` of the submitted
callables at a time.  The pool is modelled as a transition system:
a pending job may start only while fewer than `mw` jobs are running,
and a running job may finish at any time, recording its outcome. -/

/-- A pool configuration: jobs not yet started, jobs currently running,
and finished jobs with their recorded outcome. -/
structure PoolState where
  pending : List JobSpec
  running : List JobSpec
  finished : List (JobSpec × Bool)

/-- One scheduling step of a pool bounded by `mw` workers, in
environment `env`: `start` dispatches the next pending job onto a free
worker (only when one is free), `finish` retires any running job and
records the outcome its `run` produced. -/
inductive poolStep (env : JobEnv) (mw : Nat) : PoolState → PoolState → Prop where
  | start (j : JobSpec) (rest running : List JobSpec)
      (finished : List (JobSpec × Bool)) :
      running.length < mw →
      poolStep env mw ⟨j :: rest, running, finished⟩
        ⟨rest, j :: running, finished⟩
  | finish (pending l1 l2 : List JobSpec) (j : JobSpec)
      (finished : List (JobSpec × Bool)) :
      poolStep env mw ⟨pending, l1 ++ j :: l2, finished⟩
        ⟨pending, l1 ++ l2, (j, (DownloadJob.run env j).1) :: finished⟩

/-- Pool configurations reachable from an initial batch. -/
def poolReach (env : JobEnv) (mw : Nat) : PoolState → PoolState → Prop :=
  Relation.ReflTransGen (poolStep env mw)

theorem poolReach_running_le (env : JobEnv) (mw : Nat) (jobs : List JobSpec)
    (s : PoolState) (h : poolReach env mw ⟨jobs, [], []⟩ s) :
    s.running.length ≤ mw := by
  induction h with
  | refl => simp
  | tail _ step ih =>
    cases step with
    | start j rest running finished hlt => exact hlt
    | finish pending l1 l2 j finished =>
      simp only [List.length_append, List.length_cons] at ih ⊢
      omega

/-! ## `MainWindow._expand_playlist_urls` (ysn.py lines 393–437)

The expander asks the backend for a flat listing of the reference and
builds one URL per entry; every failure path falls back to the single
original reference.  The backend call `ydl.extract_info(url,
download=False)` is an input of the model. -/

/-- One playlist entry as read by the expander: its `url` and `id`
fields (missing keys are `none`). -/
structure Entry where
  url : Option String
  id : Option String
  deriving DecidableEq, Repr

/-- What the expansion attempt observes: the backend module is missing
(ysn.py lines 400–406), or `extract_info` returned a value whose truthy
`entries` list is given (`[]` covers a non-dict result, a missing
`entries` key and an empty list — all continue to the single-URL
fallback), or `extract_info` raised. -/
inductive ExpandFetch where
  | notAvailable
  | ok (entries : List Entry)
  | raises (msg : String)
  deriving DecidableEq, Repr

/-- Entry selection (ysn.py lines 418–429): prefer a truthy `url`
field, else a truthy `id` field, else skip the entry. -/
def pickEntry (e : Entry) : Option String :=
  if optTruthy e.url then e.url
  else if optTruthy e.id then e.id
  else none

/-- Model of `MainWindow._expand_playlist_urls` (ysn.py lines 393–437): the list
of references returned and the log lines emitted. -/
def expand_playlist_urls (url : String) (fetch : ExpandFetch) :
    List String × List LogEntry :=
  let log0 : LogEntry :=
    .info ("Expanding URL to individual entries (if playlist): " ++ url)
  match fetch with
  | .notAvailable =>
    ([url], [log0, .warn "Backend module not available for expansion"])
  | .raises msg =>
    ([url], [log0, .warn ("Failed to expand playlist: " ++ msg)])
  | .ok entries =>
    let urls := entries.filterMap pickEntry
    if urls.isEmpty then ([url], [log0])
    else (urls, [log0,
      .info ("Found " ++ toString urls.length ++ " entries in playlist.")])

/-! ## `detect_external_downloader` (ysn_downloader/downloader.py lines 27–46)

The locator probes the PATH for every candidate name first, and only
afterwards probes the directory of the running script for every
candidate name.  `shutil.which` and `os.path.exists` are inputs of the
model. -/

/-- The read-only filesystem facts the locator consults: PATH
resolution (`shutil.which`), plain path existence (`os.path.exists`),
the platform flag and the directory of the running script. -/
structure FsEnv where
  which : String → Option String
  pathExists : String → Bool
  isWindows : Bool
  baseDir : String

/-- Model of the suffix expression in the locator. -/
def exeSuffix (env : FsEnv) : String := if env.isWindows then ".exe" else ""

/-- First loop of `detect_external_downloader` (lines 35–38): for each
candidate in order, return its executable name when `shutil.which`
resolves it. -/
def searchPATH (env : FsEnv) : List String → Option String
  | [] => none
  | name :: rest =>
    let exe_name := name ++ exeSuffix env
    if (env.which exe_name).isSome then some exe_name
    else searchPATH env rest

/-- Second loop of `detect_external_downloader` (lines 40–45): for each
candidate in order, return the path next to the running script when it
exists. -/
def searchScriptDir (env : FsEnv) : List String → Option String
  | [] => none
  | name :: rest =>
    let exe_name := name ++ exeSuffix env
    let local_path := joinPath env.baseDir exe_name
    if env.pathExists local_path then some local_path
    else searchScriptDir env rest

/-- Model of `detect_external_downloader(preferred=None)` (lines 27–46):
defaults the candidate list, runs the PATH loop, then the script-dir
loop, then returns `None`. -/
def detect_external_downloader (env : FsEnv)
    (preferred : Option (List String)) : Option String :=
  match searchPATH env (preferred.getD ["aria2c", "axel"]) with
  | some r => some r
  | none => searchScriptDir env (preferred.getD ["aria2c", "axel"])

/-- Modelled from the spec: the probing order the specification
describes for the Accelerator Locator — "for each candidate name in
order, check (a) system search-path resolution, (b) a file with that
name co-located with the running application"; both probes of one
candidate happen before the next candidate is considered. -/
def locate_spec_order (env : FsEnv) (pref : List String) : Option String :=
  pref.findSome? (fun name =>
    let exe_name := name ++ exeSuffix env
    if (env.which exe_name).isSome then some exe_name
    else
      let local_path := joinPath env.baseDir exe_name
      if env.pathExists local_path then some local_path else none)

/-! ## `ensure_aria2_on_windows`

Two copies of the provisioning helper exist in the repository:
`ysn_downloader/downloader.py` (lines 69–161, the module `ysn.py`
imports) and `src/ysn_downloader/downloader.py` (lines 87–204, a
variant with a `try/finally` around the scratch zip).  Both are
modelled; network and filesystem effects are inputs, and the model
tracks which scratch artifacts are still on disk when the function
returns. -/

/-- Character-list versions of the string probes the helper performs
(`.lower()`, `.endswith(...)`, substring containment), written by
structural recursion so that concrete runs reduce inside the kernel. -/
def strToLower (s : String) : String := ⟨s.data.map Char.toLower⟩

/-- Holds when the first list is an initial segment of the second. -/
def listLeads : List Char → List Char → Bool
  | [], _ => true
  | _ :: _, [] => false
  | a :: ps, b :: ls => a == b && listLeads ps ls

/-- Holds when `p` occurs somewhere inside the second list. -/
def listOccurs (p : List Char) : List Char → Bool
  | [] => listLeads p []
  | b :: rest => listLeads p (b :: rest) || listOccurs p rest

/-- Model of `s.endswith(pat)`. -/
def strEndsWith (s pat : String) : Bool :=
  s.data.drop (s.data.length - pat.data.length) == pat.data

/-- Model of `pat in s` (substring containment). -/
def strContainsSub (s pat : String) : Bool := listOccurs pat.data s.data

/-- One release asset as read from the GitHub API response: its `name`
and `browser_download_url` fields. -/
structure Asset where
  name : String
  browser_download_url : Option String
  deriving DecidableEq, Repr

/-- Asset selection (v1 lines 101–112, v2 lines 125–138): prefer the
first asset whose lower-cased name contains `"win"` and ends with
`".zip"`, else fall back to the first whose name ends with `".zip"`. -/
def pickAsset (assets : List Asset) : Option Asset :=
  match assets.find? (fun a =>
      strContainsSub (strToLower a.name) "win" &&
        strEndsWith (strToLower a.name) ".zip") with
  | some a => some a
  | none => assets.find? (fun a => strEndsWith (strToLower a.name) ".zip")

/-- Environment of one provisioning attempt.  Fallible steps carry the
value they produce or the exception they raise: `apiResponse` covers
the GitHub query (`requests.get` + `raise_for_status` + `json`),
`downloadOk` whether the streamed download raises, `zipNamelist` the
opening of the archive and its member listing, `rmtreeOk` (v2 only)
whether removing the scratch extraction directory succeeds. -/
structure Aria2Env where
  isWindows : Bool
  requestsAvailable : Bool
  alreadyPresent : Bool
  baseDir : String
  apiResponse : Except String (List Asset)
  downloadOk : Bool
  zipNamelist : Except String (List String)
  rmtreeOk : Bool

/-- What the helper left behind: its return value, whether the
temporary zip file still exists, and whether a scratch extraction
directory still exists. -/
structure ProvisionOutcome where
  result : Option String
  tmpZipRemains : Bool
  extractDirRemains : Bool
  deriving DecidableEq, Repr

/-- Model of `ensure_aria2_on_windows` of `ysn_downloader/downloader.py`
(lines 69–161), the copy `ysn.py` imports.  The temporary zip created
by `mkstemp` is removed only by the explicit `os.remove(tmp_zip)` calls
on the success path (line 154) and on the missing-executable path
(line 142); an exception between `mkstemp` and those calls is caught at
line 158 with the zip still on disk.  `z.extract(exe_entry, base_dir)`
creates the archive's directory prefix under `base_dir` and only the
executable file itself is moved away, so a nested entry leaves that
directory behind (the source comments that it does not delete it). -/
def ensure_aria2_on_windows (env : Aria2Env) : ProvisionOutcome :=
  if !env.isWindows then ⟨none, false, false⟩
  else if !env.requestsAvailable then ⟨none, false, false⟩
  else
    let local_path := joinPath env.baseDir "aria2c.exe"
    if env.alreadyPresent then ⟨some local_path, false, false⟩
    else
      match env.apiResponse with
      | .error _ => ⟨none, false, false⟩
      | .ok assets =>
        match pickAsset assets with
        | none => ⟨none, false, false⟩
        | some a =>
          match a.browser_download_url with
          | none => ⟨none, false, false⟩
          | some _ =>
            if !env.downloadOk then ⟨none, true, false⟩
            else
              match env.zipNamelist with
              | .error _ => ⟨none, true, false⟩
              | .ok members =>
                match members.find?
                    (fun m => strEndsWith (strToLower m) "aria2c.exe") with
                | none => ⟨none, false, false⟩
                | some exe_entry =>
                  ⟨some local_path, false, exe_entry.data.contains '/'⟩

namespace V2

/-- Model of `ensure_aria2_on_windows` of `src/ysn_downloader/downloader.py`
(lines 87–204): checks presence before the `requests` gate, widens the
member search to any `aria2c*.exe`, extracts into a scratch directory
removed by `shutil.rmtree` (failures to remove it are swallowed), and
removes the temporary zip in a `finally`. -/
def ensure_aria2_on_windows (env : Aria2Env) : ProvisionOutcome :=
  if !env.isWindows then ⟨none, false, false⟩
  else
    let final_path := joinPath env.baseDir "aria2c.exe"
    if env.alreadyPresent then ⟨some final_path, false, false⟩
    else if !env.requestsAvailable then ⟨none, false, false⟩
    else
      match env.apiResponse with
      | .error _ => ⟨none, false, false⟩
      | .ok assets =>
        match pickAsset assets with
        | none => ⟨none, false, false⟩
        | some a =>
          match a.browser_download_url with
          | none => ⟨none, false, false⟩
          | some _ =>
            if !env.downloadOk then ⟨none, false, false⟩
            else
              match env.zipNamelist with
              | .error _ => ⟨none, false, false⟩
              | .ok members =>
                match members.find?
                    (fun m => strEndsWith (strToLower m) "aria2c.exe") with
                | some _ => ⟨some final_path, false, !env.rmtreeOk⟩
                | none =>
                  match members.find? (fun m =>
                      strContainsSub (strToLower m) "aria2c" &&
                        strEndsWith (strToLower m) ".exe") with
                  | some _ => ⟨some final_path, false, !env.rmtreeOk⟩
                  | none => ⟨none, false, false⟩

end V2

/-! ## Theorems: dispatcher claims -/

/-- The aggregate of outcomes is the per-job `run` result in submission
order, in both execution branches of `DownloadWorker.run`. -/
theorem worker_outcomes_map (env : JobEnv) (jobs : List JobSpec)
    (parallel : Int) (cpuRaw : Option Nat) :
    (DownloadWorker.run env jobs parallel cpuRaw).1 =
      jobs.map (fun j => (DownloadJob.run env j).1) := by
  unfold DownloadWorker.run
  split <;> rfl

/-- C1: for every batch passed to `DownloadWorker.run`, the aggregate
of job outcomes has exactly as many entries as the input job list — one
outcome per submitted job — for every `parallel` value and every
per-job behaviour (including failing jobs). -/
theorem batch_outcome_count (env : JobEnv) (jobs : List JobSpec)
    (parallel : Int) (cpuRaw : Option Nat) :
    (DownloadWorker.run env jobs parallel cpuRaw).1.length = jobs.length := by
  rw [worker_outcomes_map, List.length_map]

/-- C2: a job whose backend fetch raises is caught at the job boundary:
its `run` yields exactly the single outcome `false`, the exception is
logged with its traceback, and the batch still records every job's own
outcome (the aggregate is exactly the per-job results, so no sibling
outcome is lost). -/
theorem failing_job_isolated (env : JobEnv) (jobs : List JobSpec)
    (parallel : Int) (cpuRaw : Option Nat) (i : Nat) (job : JobSpec)
    (msg : String) (hj : jobs[i]? = some job)
    (hb : backendRuns job = true) (hf : job.fetch = .raises msg) :
    (DownloadWorker.run env jobs parallel cpuRaw).1[i]? = some false ∧
    LogEntry.error (msg ++ "\n" ++ traceback_format_exc msg) ∈
      (DownloadJob.run env job).2 ∧
    (DownloadWorker.run env jobs parallel cpuRaw).1 =
      jobs.map (fun j => (DownloadJob.run env j).1) ∧
    (DownloadWorker.run env jobs parallel cpuRaw).1.length = jobs.length := by
  have hrun : DownloadJob.run env job =
      (false, [.line ("Starting download: " ++ job.url ++ " (backend: " ++
        job.backend ++ ")"),
        .error (msg ++ "\n" ++ traceback_format_exc msg)]) := by
    unfold DownloadJob.run
    rw [if_pos hb, hf]
  refine ⟨?_, ?_, worker_outcomes_map env jobs parallel cpuRaw,
    by rw [worker_outcomes_map, List.length_map]⟩
  · rw [worker_outcomes_map, List.getElem?_map, hj]
    simp [hrun]
  · rw [hrun]
    simp

/-- A concrete check of `failing_job_isolated`: a two-job batch whose
second job's fetch raises. -/
def sampleEnv : JobEnv :=
  { fs := fun _ => none
    outdir := "/out"
    d := fun l => toString l.length
    hashOk := true }

def sampleOkJob : JobSpec :=
  ⟨"http://a", "yt-dlp", true, .ok none, ⟨false⟩⟩

def sampleBadJob : JobSpec :=
  ⟨"http://b", "yt-dlp", true, .raises "boom", ⟨false⟩⟩

theorem failing_job_isolated_check :
    (DownloadWorker.run sampleEnv [sampleOkJob, sampleBadJob] 4 (some 2)).1[1]? =
      some false ∧
    LogEntry.error ("boom" ++ "\n" ++ traceback_format_exc "boom") ∈
      (DownloadJob.run sampleEnv sampleBadJob).2 ∧
    (DownloadWorker.run sampleEnv [sampleOkJob, sampleBadJob] 4 (some 2)).1 =
      [sampleOkJob, sampleBadJob].map
        (fun j => (DownloadJob.run sampleEnv j).1) ∧
    (DownloadWorker.run sampleEnv [sampleOkJob, sampleBadJob] 4 (some 2)).1.length =
      [sampleOkJob, sampleBadJob].length :=
  failing_job_isolated sampleEnv [sampleOkJob, sampleBadJob] 4 (some 2) 1
    sampleBadJob "boom" (by rfl) (by rfl) (by rfl)

/-- C10: the constructor coerces every requested parallelism, including
zero and negative values, to `max(1, parallel)`, and any request of at
most 1 selects the strictly sequential branch of `run`. -/
theorem parallel_clamp_sequential (p : Int) :
    (DownloadWorker.parallelField p : Int) = max 1 p ∧
    (p ≤ 1 → DownloadWorker.parallelField p = 1 ∧
      DownloadWorker.mode p = .sequential) := by
  constructor
  · unfold DownloadWorker.parallelField
    omega
  · intro hp
    have h1 : DownloadWorker.parallelField p = 1 := by
      unfold DownloadWorker.parallelField
      omega
    refine ⟨h1, ?_⟩
    unfold DownloadWorker.mode
    rw [h1]
    rfl

theorem parallel_clamp_sequential_check :
    (DownloadWorker.parallelField (-3) : Int) = max 1 (-3) ∧
    (DownloadWorker.parallelField (-3) = 1 ∧
      DownloadWorker.mode (-3) = .sequential) :=
  ⟨(parallel_clamp_sequential (-3)).1,
    (parallel_clamp_sequential (-3)).2 (by decide)⟩

/-- C3: for a requested parallelism above 1, the worker sizes its pool
as `min(requested, max(4, cpu_count * 4), 64)`, and in the bounded-pool
semantics no reachable configuration ever has more than that many jobs
running at once. -/
theorem pool_clamp_bound (p : Int) (cpuRaw : Option Nat) (hp : 1 < p) :
    DownloadWorker.max_workers p cpuRaw =
      min (min p.toNat (max 4 (DownloadWorker.cpu_count_resolved cpuRaw * 4))) 64 ∧
    ∀ (env : JobEnv) (jobs : List JobSpec) (s : PoolState),
      poolReach env (DownloadWorker.max_workers p cpuRaw) ⟨jobs, [], []⟩ s →
      s.running.length ≤ DownloadWorker.max_workers p cpuRaw := by
  constructor
  · unfold DownloadWorker.max_workers DownloadWorker.parallelField
    have : max 1 p = p := max_eq_right (le_of_lt hp)
    rw [this]
  · intro env jobs s h
    exact poolReach_running_le env _ jobs s h

theorem pool_clamp_bound_check :
    DownloadWorker.max_workers 8 (some 2) =
      min (min (Int.toNat 8)
        (max 4 (DownloadWorker.cpu_count_resolved (some 2) * 4))) 64 ∧
    (PoolState.mk [] [sampleOkJob] []).running.length ≤
      DownloadWorker.max_workers 8 (some 2) :=
  ⟨(pool_clamp_bound 8 (some 2) (by decide)).1,
    (pool_clamp_bound 8 (some 2) (by decide)).2 sampleEnv [sampleOkJob] _
      (Relation.ReflTransGen.single
        (poolStep.start sampleOkJob [] [] [] (by decide)))⟩

/-! ## Theorems: collection expander -/

/-- C4: when the backend expansion yields no entries the expander
returns exactly the single original reference, and when the expansion
raises it also returns exactly the single original reference while
logging exactly one warning — the exception never reaches the caller
(the function returns a value on that path). -/
theorem expansion_fallback_single (url msg : String) :
    (expand_playlist_urls url (.ok [])).1 = [url] ∧
    (expand_playlist_urls url (.raises msg)).1 = [url] ∧
    ((expand_playlist_urls url (.raises msg)).2.filter LogEntry.isWarn).length
      = 1 := by
  refine ⟨rfl, rfl, ?_⟩
  simp [expand_playlist_urls, LogEntry.isWarn]

/-! ## Theorems: accelerator locator -/

/-- If no candidate resolves on the PATH, the first loop finds
nothing. -/
theorem searchPATH_none (env : FsEnv) (l : List String)
    (h : ∀ name ∈ l, env.which (name ++ exeSuffix env) = none) :
    searchPATH env l = none := by
  induction l with
  | nil => rfl
  | cons a as ih =>
    have ha := h a (List.mem_cons_self a as)
    simp only [searchPATH, ha, Option.isSome_none, Bool.false_eq_true,
      if_false]
    exact ih (fun n hn => h n (List.mem_cons_of_mem a hn))

/-- If no candidate file exists next to the script, the second loop
finds nothing. -/
theorem searchScriptDir_none (env : FsEnv) (l : List String)
    (h : ∀ name ∈ l,
      env.pathExists (joinPath env.baseDir (name ++ exeSuffix env)) = false) :
    searchScriptDir env l = none := by
  induction l with
  | nil => rfl
  | cons a as ih =>
    have ha := h a (List.mem_cons_self a as)
    simp only [searchScriptDir, ha, Bool.false_eq_true, if_false]
    exact ih (fun n hn => h n (List.mem_cons_of_mem a hn))

/-- The second loop returns the first existing co-located candidate. -/
theorem searchScriptDir_hit (env : FsEnv) (l : List String) (i : Nat)
    (hi : i < l.length)
    (hHit : env.pathExists
      (joinPath env.baseDir (l.getD i "" ++ exeSuffix env)) = true)
    (hBefore : ∀ j, j < i →
      env.pathExists
        (joinPath env.baseDir (l.getD j "" ++ exeSuffix env)) = false) :
    searchScriptDir env l =
      some (joinPath env.baseDir (l.getD i "" ++ exeSuffix env)) := by
  induction l generalizing i with
  | nil => simp at hi
  | cons a as ih =>
    cases i with
    | zero =>
      simp only [List.getD_cons_zero] at hHit
      simp only [searchScriptDir, hHit, if_true, List.getD_cons_zero]
    | succ n =>
      have h0 : env.pathExists
          (joinPath env.baseDir (a ++ exeSuffix env)) = false := by
        have := hBefore 0 (Nat.succ_pos n)
        simpa using this
      simp only [searchScriptDir, h0, Bool.false_eq_true, if_false,
        List.getD_cons_succ]
      exact ih n (by simpa using hi) (by simpa using hHit)
        (fun j hj => by simpa using hBefore (j + 1) (Nat.succ_lt_succ hj))

/-- C6: when no candidate executable is found anywhere — neither on the
search path nor next to the running script — the locator returns `None`
(and, being a total function of its read-only probes, it raises
nothing). -/
theorem locator_absent_none (env : FsEnv) (preferred : Option (List String))
    (h : ∀ name ∈ preferred.getD ["aria2c", "axel"],
      env.which (name ++ exeSuffix env) = none ∧
      env.pathExists (joinPath env.baseDir (name ++ exeSuffix env)) = false) :
    detect_external_downloader env preferred = none := by
  unfold detect_external_downloader
  rw [searchPATH_none env _ (fun n hn => (h n hn).1)]
  exact searchScriptDir_none env _ (fun n hn => (h n hn).2)

def absentEnv : FsEnv :=
  { which := fun _ => none
    pathExists := fun _ => false
    isWindows := false
    baseDir := "/app" }

theorem locator_absent_none_check :
    detect_external_downloader absentEnv none = none :=
  locator_absent_none absentEnv none (by decide)

/-- An environment in which `aria2c` exists only next to the script
while `axel` resolves on the PATH. -/
def crossEnv : FsEnv :=
  { which := fun s => if s = "axel" then some "/usr/bin/axel" else none
    pathExists := fun s => s == "/app/aria2c"
    isWindows := false
    baseDir := "/app" }

/-- C5 counterexample: the locator does not probe per candidate
(search path then application directory for `aria2c` before moving to
`axel`); it exhausts the search path over all candidates first.  With
`aria2c` present only in the application directory and `axel` present
on the search path, the per-candidate order of the claim would return
the co-located `aria2c`, but the code returns `axel`. -/
theorem locator_order_cex :
    detect_external_downloader crossEnv none = some "axel" ∧
    locate_spec_order crossEnv ["aria2c", "axel"] = some "/app/aria2c" ∧
    detect_external_downloader crossEnv none ≠
      locate_spec_order crossEnv ["aria2c", "axel"] := by
  refine ⟨rfl, rfl, ?_⟩
  decide

/-- C5 amended: the locator probes the system search path for every
candidate in preference order first; only when no candidate resolves
there does it probe the application directory for each candidate in
order, returning the first existing co-located file — so in particular
a match present only in the application directory (no candidate being
on the search path) is still returned. -/
theorem locator_two_phase (env : FsEnv) (pref : List String) (i : Nat)
    (hi : i < pref.length)
    (hPath : ∀ name ∈ pref, env.which (name ++ exeSuffix env) = none)
    (hHit : env.pathExists
      (joinPath env.baseDir (pref.getD i "" ++ exeSuffix env)) = true)
    (hBefore : ∀ j, j < i →
      env.pathExists
        (joinPath env.baseDir (pref.getD j "" ++ exeSuffix env)) = false) :
    detect_external_downloader env (some pref) = searchScriptDir env pref ∧
    detect_external_downloader env (some pref) =
      some (joinPath env.baseDir (pref.getD i "" ++ exeSuffix env)) := by
  have h1 : detect_external_downloader env (some pref) =
      searchScriptDir env pref := by
    unfold detect_external_downloader
    simp only [Option.getD_some]
    rw [searchPATH_none env pref hPath]
  exact ⟨h1, h1.trans (searchScriptDir_hit env pref i hi hHit hBefore)⟩

def dirOnlyEnv : FsEnv :=
  { which := fun _ => none
    pathExists := fun s => s == "/app/axel"
    isWindows := false
    baseDir := "/app" }

theorem locator_two_phase_check :
    detect_external_downloader dirOnlyEnv (some ["aria2c", "axel"]) =
      searchScriptDir dirOnlyEnv ["aria2c", "axel"] ∧
    detect_external_downloader dirOnlyEnv (some ["aria2c", "axel"]) =
      some (joinPath dirOnlyEnv.baseDir
        (["aria2c", "axel"].getD 1 "" ++ exeSuffix dirOnlyEnv)) :=
  locator_two_phase dirOnlyEnv ["aria2c", "axel"] 1 (by decide) (by decide)
    (by decide)
    (fun j hj => by
      have : j = 0 := by omega
      subst this
      decide)

/-! ## Theorems: job post-processing -/

/-- C8: when `compute_hash` is set, the produced file path resolves and
the file exists, the emitted hash log line carries exactly the digest
of the whole file's bytes: the chunked `sha256_of_file` computation
equals the digest `d` of the complete contents. -/
theorem hash_line_whole_digest (env : JobEnv) (opts : JobOpts)
    (i : MediaInfo) (fname : String) (content : List Nat)
    (hopts : opts.compute_hash = true)
    (hres : resolveFilename env i = some fname)
    (hne : fname ≠ "")
    (hfs : env.fs fname = some content)
    (hok : env.hashOk = true) :
    (after_download_process env opts (some i)).2 =
      [.hash (baseName fname ++ " SHA256: " ++ env.d content)] ∧
    sha256_of_file env.d content = env.d content := by
  refine ⟨?_, sha256_of_file_eq env.d content⟩
  simp [after_download_process, hres, optTruthy, hne, hfs, hopts, hok,
    sha256_of_file_eq]

def hashEnv : JobEnv :=
  { fs := fun s => if s = "/out/a.mp4" then some [1, 2, 3] else none
    outdir := "/out"
    d := fun l => toString (l.foldl (fun a b => a + b) 0)
    hashOk := true }

def hashInfo : MediaInfo :=
  ⟨some "/out/a.mp4", none, none, some "vid", none⟩

theorem hash_line_whole_digest_check :
    (after_download_process hashEnv ⟨true⟩ (some hashInfo)).2 =
      [.hash (baseName "/out/a.mp4" ++ " SHA256: " ++ hashEnv.d [1, 2, 3])] ∧
    sha256_of_file hashEnv.d [1, 2, 3] = hashEnv.d [1, 2, 3] :=
  hash_line_whole_digest hashEnv ⟨true⟩ hashInfo "/out/a.mp4" [1, 2, 3]
    (by rfl) (by rfl) (by decide) (by rfl) (by rfl)

/-- C9: when the fetch completes without raising but the produced file
path cannot be resolved on disk, the job logs the resolution warning,
leaves the resolved path empty, and still reports a successful
outcome. -/
theorem resolution_warn_success (env : JobEnv) (opts : JobOpts)
    (i : MediaInfo) (url : String)
    (h : (optTruthy (resolveFilename env i) &&
      (env.fs ((resolveFilename env i).getD "")).isSome) = false) :
    (after_download_process env opts (some i)).1 = none ∧
    LogEntry.warn ("could not determine downloaded filename from info: " ++
      i.id.getD "unknown") ∈ (after_download_process env opts (some i)).2 ∧
    (DownloadJob.run env
      ⟨url, "yt-dlp", true, .ok (some ⟨none, some i⟩), opts⟩).1 = true := by
  refine ⟨?_, ?_, ?_⟩
  · simp [after_download_process, h]
  · simp [after_download_process, h]
  · rfl

def bareInfo : MediaInfo := ⟨none, none, none, none, none⟩

theorem resolution_warn_success_check :
    (after_download_process sampleEnv ⟨true⟩ (some bareInfo)).1 = none ∧
    LogEntry.warn ("could not determine downloaded filename from info: " ++
      bareInfo.id.getD "unknown") ∈
      (after_download_process sampleEnv ⟨true⟩ (some bareInfo)).2 ∧
    (DownloadJob.run sampleEnv
      ⟨"http://a", "yt-dlp", true, .ok (some ⟨none, some bareInfo⟩),
        ⟨true⟩⟩).1 = true :=
  resolution_warn_success sampleEnv ⟨true⟩ bareInfo "http://a" (by decide)

/-! ## Theorems: provisioning helper -/

/-- Holds when the attempt gets as far as creating the temporary zip
(platform and `requests` gates passed, binary not already present, the
release query succeeded, a zip asset with a download URL was found). -/
def reaches_download (env : Aria2Env) : Bool :=
  env.isWindows && env.requestsAvailable && !env.alreadyPresent &&
    (match env.apiResponse with
      | .ok assets =>
        match pickAsset assets with
        | some a => a.browser_download_url.isSome
        | none => false
      | .error _ => false)

/-- Holds when opening the archive and listing its members succeeds. -/
def zipListed (env : Aria2Env) : Bool :=
  match env.zipNamelist with
  | .ok _ => true
  | .error _ => false

/-- The archive member the v1 helper extracts, when one is found. -/
def exeEntryV1 (env : Aria2Env) : Option String :=
  match env.zipNamelist with
  | .ok members =>
    members.find? (fun m => strEndsWith (strToLower m) "aria2c.exe")
  | .error _ => none

/-- An attempt on Windows whose asset download raises. -/
def leakEnvA : Aria2Env :=
  { isWindows := true
    requestsAvailable := true
    alreadyPresent := false
    baseDir := "C:/app"
    apiResponse := .ok [⟨"aria2-1.36.0-win-64bit-build1.zip", some "http://x"⟩]
    downloadOk := false
    zipNamelist := .ok []
    rmtreeOk := true }

/-- A successful attempt whose archive stores the executable under a
nested directory (as the aria2 release zips do). -/
def leakEnvB : Aria2Env :=
  { leakEnvA with
    downloadOk := true
    zipNamelist := .ok ["aria2-1.36.0-win-64bit-build1/aria2c.exe"] }

/-- C7 counterexample: in the helper `ysn.py` imports, a failure while
downloading the asset returns absence but leaves the temporary zip on
disk, and a successful install from a nested archive leaves the
extraction directory under the application directory — scratch
artifacts are not removed on every path. -/
theorem provisioning_scratch_cex :
    (ensure_aria2_on_windows leakEnvA).result = none ∧
    (ensure_aria2_on_windows leakEnvA).tmpZipRemains = true ∧
    (ensure_aria2_on_windows leakEnvB).result = some "C:/app/aria2c.exe" ∧
    (ensure_aria2_on_windows leakEnvB).extractDirRemains = true := by
  refine ⟨by decide, by decide, by decide, by decide⟩

/-- C7 amended: the helper is best-effort in its result — every
modelled failure returns absence and nothing escapes as an exception
(the result is always either absence or the final path) — but scratch
cleanup is partial: the temporary zip remains exactly when the attempt
reached the download and then the download or the archive opening
failed, and the extraction directory remains exactly when the install
succeeded from an archive whose executable entry is nested. -/
theorem provisioning_best_effort_cleanup (env : Aria2Env) :
    (ensure_aria2_on_windows env).result =
      (if env.isWindows && env.requestsAvailable && env.alreadyPresent then
        some (joinPath env.baseDir "aria2c.exe")
      else if reaches_download env && env.downloadOk &&
          (exeEntryV1 env).isSome then
        some (joinPath env.baseDir "aria2c.exe")
      else none) ∧
    (ensure_aria2_on_windows env).tmpZipRemains =
      (reaches_download env && (!env.downloadOk || !zipListed env)) ∧
    (ensure_aria2_on_windows env).extractDirRemains =
      (reaches_download env && env.downloadOk && (exeEntryV1 env).isSome &&
        ((exeEntryV1 env).getD "").data.contains '/') := by
  obtain ⟨w, rq, pr, bd, api, dl, zip, rm⟩ := env
  cases w
  · simp [ensure_aria2_on_windows, reaches_download]
  · cases rq
    · simp [ensure_aria2_on_windows, reaches_download]
    · cases pr
      · cases api with
        | error e =>
          simp [ensure_aria2_on_windows, reaches_download, exeEntryV1]
        | ok assets =>
          cases hpa : pickAsset assets with
          | none =>
            simp [ensure_aria2_on_windows, reaches_download, hpa, exeEntryV1]
          | some a =>
            cases hu : a.browser_download_url with
            | none =>
              simp [ensure_aria2_on_windows, reaches_download, hpa, hu,
                exeEntryV1]
            | some u =>
              cases dl
              · cases zip with
                | error e =>
                  simp [ensure_aria2_on_windows, reaches_download, hpa, hu,
                    exeEntryV1, zipListed]
                | ok members =>
                  simp [ensure_aria2_on_windows, reaches_download, hpa, hu,
                    exeEntryV1, zipListed]
              · cases zip with
                | error e =>
                  simp [ensure_aria2_on_windows, reaches_download, hpa, hu,
                    exeEntryV1, zipListed]
                | ok members =>
                  cases hf : members.find?
                      (fun m => strEndsWith (strToLower m) "aria2c.exe") with
                  | none =>
                    simp [ensure_aria2_on_windows, reaches_download, hpa, hu,
                      exeEntryV1, zipListed, hf]
                  | some m =>
                    simp [ensure_aria2_on_windows, reaches_download, hpa, hu,
                      exeEntryV1, zipListed, hf]
      · simp [ensure_aria2_on_windows, reaches_download]

/-- The variant copy under `src/ysn_downloader/downloader.py` removes
the temporary zip in a `finally` on every path after creating it, and
leaves the scratch extraction directory behind only when `rmtree`
itself fails. -/
theorem v2_scratch_zip_removed (env : Aria2Env) :
    (V2.ensure_aria2_on_windows env).tmpZipRemains = false := by
  unfold V2.ensure_aria2_on_windows
  repeat' split
  all_goals rfl
